import Mathlib

/-!
Verification development for the rules engine of the hotel-chain
acquisition board game.  The engine module `gameLogic` is exercised by its
unit tests and UI callers; its operations are modelled here as pure Lean
functions over an explicit `GameState`, following the specification and
the behaviour pinned down by the unit tests.  Machine integers are
modelled as `Nat`/`Int`; fallible entry points return `Except`.
-/

namespace Acquire

/-- Modelled from the spec: the seven fixed hotel chains. -/
inductive ChainName
  | sackson
  | tower
  | worldwide
  | american
  | festival
  | continental
  | imperial
  deriving DecidableEq, Repr

/-- Modelled from the spec: price tiers. -/
inductive Tier
  | budget
  | midrange
  | premium
  deriving DecidableEq, Repr

/-- Modelled from the spec: 2 budget, 3 midrange and 2 premium chains. -/
def ChainName.tier : ChainName → Tier
  | .sackson => .budget
  | .tower => .budget
  | .worldwide => .midrange
  | .american => .midrange
  | .festival => .midrange
  | .continental => .premium
  | .imperial => .premium

/-- Modelled from the spec: the fixed chain declaration order. -/
def CHAIN_NAMES : List ChainName :=
  [.sackson, .tower, .worldwide, .american, .festival, .continental, .imperial]

/-- Modelled from the spec and the price matrix shown in `InfoCard.tsx`:
per-tier price table indexed by size bracket (brackets 2, 3, 4-5, 6-10,
11-20, 21-30, 31-40, 41+). -/
def BASE_PRICES : Tier → List Nat
  | .budget => [200, 300, 400, 500, 600, 700, 800, 900]
  | .midrange => [300, 400, 500, 600, 700, 800, 900, 1000]
  | .premium => [400, 500, 600, 700, 800, 900, 1000, 1100]

/-- Modelled from the spec: index of the size bracket a chain size falls
in; `none` for sizes 0 and 1, which have no bracket and price 0. -/
def sizeBracket (size : Nat) : Option Nat :=
  if 41 ≤ size then some 7
  else if 31 ≤ size then some 6
  else if 21 ≤ size then some 5
  else if 11 ≤ size then some 4
  else if 6 ≤ size then some 3
  else if 4 ≤ size then some 2
  else if size = 3 then some 1
  else if size = 2 then some 0
  else none

/-- Modelled from the spec: bracket lookup of the stock price; 0 when the
size has no bracket (size 0, and size 1 which never occurs in play). -/
def getStockPrice (chain : ChainName) (size : Nat) : Nat :=
  match sizeBracket size with
  | none => 0
  | some i => (BASE_PRICES chain.tier).getD i 0

/-- Modelled from the spec: majority bonus is 10 times the price and
minority bonus 5 times the price. -/
structure Bonuses where
  majority : Nat
  minority : Nat
  deriving DecidableEq, Repr

/-- Modelled from the spec: `getBonuses(chain, size)`. -/
def getBonuses (chain : ChainName) (size : Nat) : Bonuses :=
  { majority := getStockPrice chain size * 10
    minority := getStockPrice chain size * 5 }

/-- Board coordinate: a row digit and a column letter, as parsed from a
tile id string such as "5F". -/
structure TileId where
  row : Nat
  col : Char
  deriving DecidableEq, Repr

/-- Modelled from the unit tests: the tile-id pattern the implementation
actually accepts.  The tests document that "0A" parses (the regex allows
a row digit 0), so the accepted pattern is a digit 0-9 followed by a
letter A-L. -/
def tileIdPattern (l : List Char) : Bool :=
  match l with
  | [d, c] => (48 ≤ d.toNat && d.toNat ≤ 57) && (65 ≤ c.toNat && c.toNat ≤ 76)
  | _ => false

/-- The tile-id pattern exactly as the spec words it: `[1-9][A-L]`. -/
def specTileIdPattern (l : List Char) : Bool :=
  match l with
  | [d, c] => (49 ≤ d.toNat && d.toNat ≤ 57) && (65 ≤ c.toNat && c.toNat ≤ 76)
  | _ => false

/-- Modelled from the spec and unit tests: `parseTileId` returns the row
digit and column letter of a matching string and fails with an
"Invalid tile ID" error otherwise.  Per the tests, "0A" parses to row 0
while "10A", "1M", "AA" and "" are rejected. -/
def parseTileIdChars (l : List Char) : Except String TileId :=
  match l with
  | [d, c] =>
      if (48 ≤ d.toNat && d.toNat ≤ 57) && (65 ≤ c.toNat && c.toNat ≤ 76) then
        .ok { row := d.toNat - 48, col := c }
      else
        .error "Invalid tile ID"
  | _ => .error "Invalid tile ID"

/-- Modelled from the spec and unit tests: string-level entry point. -/
def parseTileId (s : String) : Except String TileId :=
  parseTileIdChars s.data

/-- True when an `Except` result is a success. -/
def exceptOk {ε α : Type} (e : Except ε α) : Bool :=
  match e with
  | .ok _ => true
  | .error _ => false

/-- Modelled from the spec: all 108 tile ids, row-major order. -/
def COLS : List Char := ['A', 'B', 'C', 'D', 'E', 'F', 'G', 'H', 'I', 'J', 'K', 'L']

/-- Modelled from the spec: `generateAllTiles()` yields the 9 × 12 grid. -/
def generateAllTiles : List TileId :=
  (List.range 9).flatMap (fun r => COLS.map (fun c => { row := r + 1, col := c }))

/-- Modelled from the spec: the 4-neighbourhood of a tile clipped to the
9 × 12 grid. -/
def getAdjacentTiles (t : TileId) : List TileId :=
  (if 1 < t.row then [{ row := t.row - 1, col := t.col }] else []) ++
  (if t.row < 9 then [{ row := t.row + 1, col := t.col }] else []) ++
  (if 65 < t.col.toNat then [{ row := t.row, col := Char.ofNat (t.col.toNat - 1) }] else []) ++
  (if t.col.toNat < 76 then [{ row := t.row, col := Char.ofNat (t.col.toNat + 1) }] else [])

/-- Modelled from the spec: per-player stock holdings, one count per
chain. -/
structure Stocks where
  sackson : Nat
  tower : Nat
  worldwide : Nat
  american : Nat
  festival : Nat
  continental : Nat
  imperial : Nat
  deriving DecidableEq, Repr

/-- Look up a holding. -/
def Stocks.get (s : Stocks) : ChainName → Nat
  | .sackson => s.sackson
  | .tower => s.tower
  | .worldwide => s.worldwide
  | .american => s.american
  | .festival => s.festival
  | .continental => s.continental
  | .imperial => s.imperial

/-- Replace a holding. -/
def Stocks.set (s : Stocks) (c : ChainName) (n : Nat) : Stocks :=
  match c with
  | .sackson => { s with sackson := n }
  | .tower => { s with tower := n }
  | .worldwide => { s with worldwide := n }
  | .american => { s with american := n }
  | .festival => { s with festival := n }
  | .continental => { s with continental := n }
  | .imperial => { s with imperial := n }

/-- All-zero holdings. -/
def Stocks.zero : Stocks := ⟨0, 0, 0, 0, 0, 0, 0⟩

/-- Modelled from the spec: a player. -/
structure PlayerState where
  id : String
  name : String
  cash : Int
  tiles : List TileId
  stocks : Stocks
  deriving DecidableEq, Repr

/-- Modelled from the spec: one chain's member tiles and flags. -/
structure ChainState where
  tiles : List TileId
  isActive : Bool
  isSafe : Bool
  deriving DecidableEq, Repr

/-- Modelled from the spec: a board cell. -/
structure BoardTile where
  placed : Bool
  chain : Option ChainName
  deriving DecidableEq, Repr

/-- Modelled from the spec: the turn phases. -/
inductive Phase
  | place_tile
  | found_chain
  | merger_choose_survivor
  | merger_pay_bonuses
  | merger_handle_stock
  | buy_stock
  | game_over
  deriving DecidableEq, Repr

/-- Modelled from the spec: the optional merger sub-state — the surviving
chain (none while a survivor choice is awaited), the defunct chain
currently being resolved, the queue of remaining defunct chains, and the
player index whose stock disposition is awaited. -/
structure MergerState where
  survivingChain : Option ChainName
  currentDefunctChain : Option ChainName
  queue : List ChainName
  currentPlayerIndex : Nat
  deriving DecidableEq, Repr

/-- Modelled from the spec: a holder's stock disposition for the current
defunct chain — sell all held shares, trade an even quantity 2-for-1 into
the survivor, or keep the shares unconverted. -/
inductive MergerStockDecision
  | sell
  | trade (qty : Nat)
  | keep
  deriving DecidableEq, Repr

/-- Modelled from the spec: the game snapshot.  The board, chain registry
and stock bank are total maps; `endGameVotes` records each voter's latest
vote. -/
structure GameState where
  board : TileId → BoardTile
  chains : ChainName → ChainState
  players : List PlayerState
  stockBank : ChainName → Nat
  tileBag : List TileId
  currentPlayerIndex : Nat
  phase : Phase
  lastPlacedTile : Option TileId
  merger : Option MergerState
  stocksPurchasedThisTurn : Nat
  gameLog : List String
  endGameVotes : List (Nat × Bool)

/-- Apply `f` to the element at index `i`, leaving the rest unchanged. -/
def updateAt {α : Type} (i : Nat) (f : α → α) : List α → List α
  | [] => []
  | x :: xs =>
    match i with
    | 0 => f x :: xs
    | n + 1 => x :: updateAt n f xs

/-- Modelled from the spec: the per-turn stock purchase limit. -/
def MAX_STOCKS_PER_TURN : Nat := 3

/-- Modelled from the spec: `drawTile` moves the first tile of the bag
into the current player's hand and is a no-op when the bag is empty. -/
def drawTile (s : GameState) : GameState :=
  match s.tileBag with
  | [] => s
  | t :: rest =>
    { s with
      tileBag := rest
      players := updateAt s.currentPlayerIndex
        (fun p => { p with tiles := p.tiles ++ [t] }) s.players }

/-- Modelled from the spec: `discardTile` removes a tile from the acting
player's hand and draws a replacement when one is available; it is a
no-op when the tile is not in hand. -/
def discardTile (s : GameState) (t : TileId) : GameState :=
  match s.players.get? s.currentPlayerIndex with
  | none => s
  | some p =>
    if t ∈ p.tiles then
      drawTile
        { s with
          players := updateAt s.currentPlayerIndex
            (fun q => { q with tiles := q.tiles.erase t }) s.players }
    else s

/-- Modelled from the spec and unit tests: `endTurn` resets the phase,
the purchase counter and the last-placed tile, replenishes the hand of
the departing player (the tests assert that the hand at the old index
grows), advances `currentPlayerIndex` modulo the player count and logs
the action. -/
def endTurn (s : GameState) : GameState :=
  let s1 := drawTile s
  { s1 with
    currentPlayerIndex := (s.currentPlayerIndex + 1) % s.players.length
    phase := .place_tile
    stocksPurchasedThisTurn := 0
    lastPlacedTile := none
    gameLog := s1.gameLog ++ ["Ended turn"] }

/-- One requested stock purchase. -/
structure Purchase where
  chain : ChainName
  quantity : Nat
  deriving DecidableEq, Repr

/-- Modelled from the spec: sequentially validate and apply a purchase
list for the acting player.  Each step requires the chain to be active,
the bank to hold enough shares, the cost to fit in the remaining cash and
the running per-turn total to stay within the 3-share cap; any failure
aborts the whole list. -/
def applyPurchases (s : GameState) : List Purchase → Option GameState
  | [] => some s
  | pur :: rest =>
    match s.players.get? s.currentPlayerIndex with
    | none => none
    | some p =>
      let cs := s.chains pur.chain
      let price := getStockPrice pur.chain cs.tiles.length
      let cost : Int := (price * pur.quantity : Nat)
      if cs.isActive = true ∧ pur.quantity ≤ s.stockBank pur.chain
          ∧ cost ≤ p.cash
          ∧ s.stocksPurchasedThisTurn + pur.quantity ≤ MAX_STOCKS_PER_TURN then
        applyPurchases
          { s with
            players := updateAt s.currentPlayerIndex
              (fun q =>
                { q with
                  cash := q.cash - cost
                  stocks := q.stocks.set pur.chain (q.stocks.get pur.chain + pur.quantity) })
              s.players
            stockBank := fun c =>
              if c = pur.chain then s.stockBank pur.chain - pur.quantity else s.stockBank c
            stocksPurchasedThisTurn := s.stocksPurchasedThisTurn + pur.quantity }
          rest
      else none

/-- Modelled from the spec: `buyStocks` applies the whole purchase list
or rejects it outright, and appends a single summarizing log entry,
omitted when the purchase list is empty. -/
def buyStocks (s : GameState) (purchases : List Purchase) : GameState :=
  match applyPurchases s purchases with
  | none => s
  | some s2 =>
    if purchases.isEmpty then s2
    else { s2 with gameLog := s2.gameLog ++ ["Bought stocks"] }

/-- Result of ranking the stockholders of a chain. -/
structure StockholderRankings where
  majority : List PlayerState
  minority : List PlayerState
  deriving DecidableEq, Repr

/-- Descending comparison of two players' holdings in a chain, as used to
rank stockholders. -/
def byHolding (chain : ChainName) (a b : PlayerState) : Bool :=
  decide (b.stocks.get chain ≤ a.stocks.get chain)

/-- Group the descending-ranked holder list into the leading tied group
and the next tied group. -/
def rankingsOfSorted (chain : ChainName) (holders : List PlayerState) :
    StockholderRankings :=
  match holders with
  | [] => { majority := [], minority := [] }
  | top :: _ =>
    let maxCount := top.stocks.get chain
    let majority := holders.takeWhile (fun p => decide (p.stocks.get chain = maxCount))
    let rest := holders.dropWhile (fun p => decide (p.stocks.get chain = maxCount))
    match rest with
    | [] => { majority := majority, minority := [] }
    | second :: _ =>
      { majority := majority
        minority := rest.takeWhile (fun p => decide (p.stocks.get chain = second.stocks.get chain)) }

/-- Modelled from the spec: holders with a positive count ranked
descending; `majority` is the leading group of holders tied for the top
count, `minority` is the next group of holders tied for the next distinct
lower count and is empty when no holders remain below the majority
group. -/
def getStockholderRankings (players : List PlayerState) (chain : ChainName) :
    StockholderRankings :=
  rankingsOfSorted chain
    ((players.filter (fun p => decide (0 < p.stocks.get chain))).mergeSort (byHolding chain))

/-- True when a board cell is placed but not yet part of a chain. -/
def isUnincorporated (board : TileId → BoardTile) (t : TileId) : Bool :=
  (board t).placed && decide ((board t).chain = none)

/-- Breadth-first search over adjacency restricted to unincorporated
placed tiles.  `fuel` bounds the number of steps; 1000 amply covers the
108-cell grid with its at-most-4 neighbours per cell. -/
def bfsUnincorporated (board : TileId → BoardTile) :
    Nat → List TileId → List TileId → List TileId
  | 0, _, visited => visited
  | _ + 1, [], visited => visited
  | fuel + 1, t :: frontier, visited =>
    if t ∈ visited then bfsUnincorporated board fuel frontier visited
    else
      let nbrs := (getAdjacentTiles t).filter
        (fun n => isUnincorporated board n && decide (¬ n ∈ visited))
      bfsUnincorporated board fuel (frontier ++ nbrs) (visited ++ [t])

/-- Modelled from the spec: the transitive closure of contiguous
unincorporated placed tiles reachable from the newly placed tile. -/
def connectedUnincorporated (board : TileId → BoardTile) (start : TileId) : List TileId :=
  bfsUnincorporated board 1000 [start] []

/-- Modelled from the spec: `foundChain` activates the chosen chain on
the founding tile set computed from the last placed tile, marks those
board tiles with the chain name, grants the founding player exactly one
free share when the bank has one (none when it is exhausted), debits the
bank and moves to the buy-stock phase. -/
def foundChain (s : GameState) (chosenName : ChainName) : GameState :=
  match s.lastPlacedTile with
  | none => s
  | some t =>
    let foundingTiles := connectedUnincorporated s.board t
    let grant := if s.stockBank chosenName = 0 then 0 else 1
    { s with
      chains := fun c =>
        if c = chosenName then
          { tiles := foundingTiles
            isActive := true
            isSafe := decide (11 ≤ foundingTiles.length) }
        else s.chains c
      board := fun id =>
        if id ∈ foundingTiles then { s.board id with chain := some chosenName }
        else s.board id
      players := updateAt s.currentPlayerIndex
        (fun p => { p with stocks := p.stocks.set chosenName (p.stocks.get chosenName + grant) })
        s.players
      stockBank := fun c =>
        if c = chosenName then s.stockBank chosenName - grant else s.stockBank c
      phase := .buy_stock
      gameLog := s.gameLog ++ ["Founded chain"] }

/-- Modelled from the spec: `placeTile` requires the tile to be in the
acting player's hand; it removes it, marks it placed, records
`lastPlacedTile` and logs the action.  A tile not in hand leaves the
snapshot unchanged. -/
def placeTile (s : GameState) (t : TileId) : GameState :=
  match s.players.get? s.currentPlayerIndex with
  | none => s
  | some p =>
    if t ∈ p.tiles then
      { s with
        players := updateAt s.currentPlayerIndex
          (fun q => { q with tiles := q.tiles.erase t }) s.players
        board := fun id => if id = t then { s.board id with placed := true } else s.board id
        lastPlacedTile := some t
        gameLog := s.gameLog ++ ["Placed tile"] }
    else s

/-- Modelled from the spec: a freshly seated player with 6000 in cash. -/
def initialPlayer (i : Nat) (nm : String) (hand : List TileId) : PlayerState :=
  { id := "player-" ++ toString i
    name := nm
    cash := 6000
    tiles := hand
    stocks := Stocks.zero }

/-- Modelled from the spec: deterministic core of `initializeGame`, taking
the already-shuffled tile order as an argument (the implementation
shuffles with Fisher-Yates; any permutation of the 108 tiles may occur).
The first tile of the shuffled order is pre-placed on the board, then
each of the players is dealt 6 tiles, and the rest stays in the bag. -/
def initializeGameCore (names : List String) (bag : List TileId) : GameState :=
  let startTile := bag.head?
  let rest := bag.tail
  { board := fun t => { placed := decide (startTile = some t), chain := none }
    chains := fun _ => { tiles := [], isActive := false, isSafe := false }
    players := names.enum.map
      (fun e => initialPlayer e.1 e.2 ((rest.drop (6 * e.1)).take 6))
    stockBank := fun _ => 25
    tileBag := rest.drop (6 * names.length)
    currentPlayerIndex := 0
    phase := .place_tile
    lastPlacedTile := startTile
    merger := none
    stocksPurchasedThisTurn := 0
    gameLog := ["Game started"]
    endGameVotes := [] }

/-- Modelled from the spec and unit tests: `initializeGame` requires
exactly 4 players and otherwise throws "Game requires exactly 4
players". -/
def initializeGame (names : List String) (bag : List TileId) :
    Except String GameState :=
  if names.length = 4 then .ok (initializeGameCore names bag)
  else .error "Game requires exactly 4 players"

/-- Modelled from the spec: the bonus cash player `p` receives when chain
`c` of the given size is liquidated: the majority pool split evenly among
tied majority holders, the minority pool split evenly among tied minority
holders, and the minority pool folded into the majority pool when no
distinct minority group exists.  Splitting uses integer floor division
(the spec leaves the rounding rule open). -/
def bonusFor (players : List PlayerState) (c : ChainName) (size : Nat)
    (p : PlayerState) : Nat :=
  let r := getStockholderRankings players c
  let b := getBonuses c size
  if r.majority = [] then 0
  else if r.minority = [] then
    if p ∈ r.majority then (b.majority + b.minority) / r.majority.length else 0
  else
    (if p ∈ r.majority then b.majority / r.majority.length else 0) +
    (if p ∈ r.minority then b.minority / r.minority.length else 0)

/-- Modelled from the spec: total liquidation proceeds of one player at
game end: for every active chain, the held shares at the current price
plus the player's share of the majority/minority bonuses. -/
def liquidationProceeds (s : GameState) (p : PlayerState) : Nat :=
  (CHAIN_NAMES.filter (fun c => (s.chains c).isActive)).foldr
    (fun c acc =>
      acc + p.stocks.get c * getStockPrice c (s.chains c).tiles.length
        + bonusFor s.players c (s.chains c).tiles.length p)
    0

/-- Descending comparison by cash, as used for the final standings. -/
def byCash (a b : PlayerState) : Bool :=
  decide (b.cash ≤ a.cash)

/-- Modelled from the spec: `calculateFinalScores` liquidates every
active chain's stock for every holder, zeroes all stock holdings and
returns the players sorted descending by resulting cash (merge sort is
stable, leaving ties in original order). -/
def calculateFinalScores (s : GameState) : List PlayerState :=
  let liquidated := s.players.map
    (fun p =>
      { p with
        cash := p.cash + (liquidationProceeds s p : Nat)
        stocks := Stocks.zero })
  liquidated.mergeSort byCash

/-- Modelled from the spec: the fixed chain declaration order as an
index, used as the deterministic tie-break when ordering defunct
chains. -/
def declarationIndex : ChainName → Nat
  | .sackson => 0
  | .tower => 1
  | .worldwide => 2
  | .american => 3
  | .festival => 4
  | .continental => 5
  | .imperial => 6

/-- Modelled from the spec: order the defunct chains descending by
pre-merger size, ties broken by the fixed chain declaration order. -/
def orderDefunct (s : GameState) (cs : List ChainName) : List ChainName :=
  cs.mergeSort (fun a b =>
    decide ((s.chains b).tiles.length < (s.chains a).tiles.length
      ∨ ((s.chains b).tiles.length = (s.chains a).tiles.length
          ∧ declarationIndex a ≤ declarationIndex b)))

/-- Modelled from the spec: `chooseMergerSurvivor` records the acting
player's explicit survivor choice, orders the remaining (defunct) chains
descending by size with the declaration-order tie-break, takes the first
for resolution, and moves to the bonus-payout phase. -/
def chooseMergerSurvivor (s : GameState) (name : ChainName) : GameState :=
  match s.merger with
  | none => s
  | some m =>
    let defunct := orderDefunct s (m.queue.filter (fun c => decide (c ≠ name)))
    { s with
      merger := some
        { survivingChain := some name
          currentDefunctChain := defunct.head?
          queue := defunct.tail
          currentPlayerIndex := 0 }
      phase := .merger_pay_bonuses
      gameLog := s.gameLog ++ ["Chose merger survivor"] }

/-- Modelled from the spec: `payMergerBonuses` pays every player the
majority/minority bonus share of the current defunct chain at its
pre-merger size (even tie-splitting; the minority pool folded into a sole
majority group) and moves to the stock-disposition phase. -/
def payMergerBonuses (s : GameState) : GameState :=
  match s.merger with
  | none => s
  | some m =>
    match m.currentDefunctChain with
    | none => s
    | some dc =>
      let size := (s.chains dc).tiles.length
      { s with
        players := s.players.map (fun p =>
          { p with cash := p.cash + (bonusFor s.players dc size p : Nat) })
        phase := .merger_handle_stock
        gameLog := s.gameLog ++ ["Paid merger bonuses"] }

/-- Modelled from the spec: index of the next player after `i` still
holding at least one share of the defunct chain, awaiting a stock
disposition. -/
def nextHolderFrom (players : List PlayerState) (dc : ChainName) (i : Nat) : Option Nat :=
  ((List.range players.length).filter (fun j =>
    decide (i < j) && decide (0 < ((players.get? j).map
      (fun p => p.stocks.get dc)).getD 0))).head?

/-- Modelled from the spec: once every holder of the current defunct
chain has decided, relabel its board tiles to the survivor, deactivate it
(clear tiles), and advance the merger queue: the next defunct chain goes
back to bonus payout, and when none remain the originally placed tile
joins the survivor and play moves to the buy-stock phase. -/
def finishDefunct (s : GameState) (m : MergerState) (sv dc : ChainName) : GameState :=
  let defunctTiles := (s.chains dc).tiles
  let survivorTiles := (s.chains sv).tiles ++ defunctTiles
  let s1 := { s with
    board := fun id =>
      if id ∈ defunctTiles then { s.board id with chain := some sv } else s.board id
    chains := fun c =>
      if c = dc then { tiles := [], isActive := false, isSafe := false }
      else if c = sv then
        { tiles := survivorTiles
          isActive := true
          isSafe := decide (11 ≤ survivorTiles.length) }
      else s.chains c
    gameLog := s.gameLog ++ ["Absorbed defunct chain"] }
  match m.queue with
  | next :: restq =>
    { s1 with
      merger := some
        { m with
          currentDefunctChain := some next
          queue := restq
          currentPlayerIndex := 0 }
      phase := .merger_pay_bonuses }
  | [] =>
    let s2 := match s.lastPlacedTile with
      | some t =>
        { s1 with
          board := fun id =>
            if id = t then { s1.board id with chain := some sv } else s1.board id
          chains := fun c =>
            if c = sv then { s1.chains c with tiles := (s1.chains sv).tiles ++ [t] }
            else s1.chains c }
      | none => s1
    { s2 with merger := none, phase := .buy_stock }

/-- Modelled from the spec: apply one holder's already-validated stock
decision — sell all held shares of the defunct chain to the bank at the
pre-merger price, trade a validated even quantity 2-for-1 into the
survivor (capped by bank availability), or keep — then advance to the
next holder, or finish the defunct chain when every holder has decided. -/
def applyMergerDecision (s : GameState) (m : MergerState) (sv dc : ChainName)
    (d : MergerStockDecision) : GameState :=
  let i := m.currentPlayerIndex
  let held := ((s.players.get? i).map (fun q => q.stocks.get dc)).getD 0
  let s1 := match d with
    | .sell =>
      let price := getStockPrice dc (s.chains dc).tiles.length
      { s with
        players := updateAt i (fun q =>
          { q with
            cash := q.cash + (q.stocks.get dc * price : Nat)
            stocks := q.stocks.set dc 0 }) s.players
        stockBank := fun c => if c = dc then s.stockBank dc + held else s.stockBank c }
    | .trade qty =>
      { s with
        players := updateAt i (fun q =>
          let reduced := q.stocks.set dc (q.stocks.get dc - qty)
          { q with stocks := reduced.set sv (reduced.get sv + qty / 2) }) s.players
        stockBank := fun c =>
          if c = dc then s.stockBank dc + qty
          else if c = sv then s.stockBank sv - qty / 2
          else s.stockBank c }
    | .keep => s
  match nextHolderFrom s1.players dc i with
  | some j =>
    { s1 with
      merger := some { m with currentPlayerIndex := j }
      gameLog := s1.gameLog ++ ["Handled merger stock"] }
  | none => finishDefunct s1 m sv dc

/-- Modelled from the spec: record or overwrite the voter's end-game
vote; the game ends (phase `game_over`) once the yes-votes reach half the
player count rounded up.  Votes reset only on a new game. -/
def castEndGameVote (s : GameState) (voter : Nat) (vote : Bool) : GameState :=
  let votes := (s.endGameVotes.filter (fun v => decide (v.1 ≠ voter))) ++ [(voter, vote)]
  let yes := (votes.filter (fun v => v.2)).length
  { s with
    endGameVotes := votes
    phase := if (s.players.length + 1) / 2 ≤ yes then .game_over else s.phase
    gameLog := s.gameLog ++ ["Cast end-game vote"] }

/-- Machine-level failures the engine can raise across the action
boundary, as distinguished from locally recovered validation failures. -/
inductive EngineError
  | invalidTileId (msg : String)
  | wrongPlayerCount (n : Nat)
  deriving DecidableEq, Repr

/-- True exactly for the tile-id parse failure. -/
def EngineError.isParseFailure : EngineError → Bool
  | .invalidTileId _ => true
  | .wrongPlayerCount _ => false

/-- Outcome of a dispatched action: the resulting snapshot plus an
optional machine-readable rejection reason (`none` when the action
applied). -/
structure ActionResult where
  state : GameState
  rejected : Option String

/-- Modelled from the spec: the full action surface consumed from the
transport layer.  `new_game` carries the shuffled tile order explicitly;
every action is submitted by an acting player index (validated against
the authoritative snapshot, never trusted from the caller's state). -/
inductive Action
  | place_tile (tileId : String)
  | found_chain (name : ChainName)
  | choose_merger_survivor (name : ChainName)
  | pay_merger_bonuses
  | merger_stock_choice (decision : MergerStockDecision)
  | buy_stocks (purchases : List Purchase)
  | end_turn
  | discard_tile (tileId : String)
  | end_game_vote (vote : Bool)
  | new_game (names : List String) (bag : List TileId)

/-- Modelled from the spec: the action boundary.  Tile-id actions parse
first and fail fast as an error on malformed ids, before any state
inspection; `new_game` throws on a wrong player count; every other
action is validated against the current phase and turn ownership (the
snapshot's `currentPlayerIndex`, or `merger.currentPlayerIndex` during
stock disposition; an end-game vote is open to every seated player in
the `place_tile` and `buy_stock` phases), and every validation failure
returns the unchanged snapshot together with a rejection reason. -/
def dispatch (s : GameState) (actor : Nat) (a : Action) :
    Except EngineError ActionResult :=
  match a with
  | .place_tile tid =>
    match parseTileId tid with
    | .error e => .error (.invalidTileId e)
    | .ok t =>
      if s.phase ≠ .place_tile then .ok { state := s, rejected := some "Wrong phase" }
      else if actor ≠ s.currentPlayerIndex then
        .ok { state := s, rejected := some "Not your turn" }
      else
        match s.players.get? s.currentPlayerIndex with
        | none => .ok { state := s, rejected := some "No acting player" }
        | some p =>
          if t ∈ p.tiles then .ok { state := placeTile s t, rejected := none }
          else .ok { state := s, rejected := some "Tile not in hand" }
  | .found_chain nm =>
    if s.phase ≠ .found_chain then .ok { state := s, rejected := some "Wrong phase" }
    else if actor ≠ s.currentPlayerIndex then
      .ok { state := s, rejected := some "Not your turn" }
    else .ok { state := foundChain s nm, rejected := none }
  | .choose_merger_survivor nm =>
    if s.phase ≠ .merger_choose_survivor then
      .ok { state := s, rejected := some "Wrong phase" }
    else if actor ≠ s.currentPlayerIndex then
      .ok { state := s, rejected := some "Not your turn" }
    else
      match s.merger with
      | none => .ok { state := s, rejected := some "No merger in progress" }
      | some m =>
        if nm ∈ m.queue then .ok { state := chooseMergerSurvivor s nm, rejected := none }
        else .ok { state := s, rejected := some "Not a merger candidate" }
  | .pay_merger_bonuses =>
    if s.phase ≠ .merger_pay_bonuses then
      .ok { state := s, rejected := some "Wrong phase" }
    else if actor ≠ s.currentPlayerIndex then
      .ok { state := s, rejected := some "Not your turn" }
    else .ok { state := payMergerBonuses s, rejected := none }
  | .merger_stock_choice d =>
    if s.phase ≠ .merger_handle_stock then
      .ok { state := s, rejected := some "Wrong phase" }
    else
      match s.merger with
      | none => .ok { state := s, rejected := some "No merger in progress" }
      | some m =>
        if actor ≠ m.currentPlayerIndex then
          .ok { state := s, rejected := some "Not your turn" }
        else
          match m.survivingChain, m.currentDefunctChain with
          | some sv, some dc =>
            match s.players.get? m.currentPlayerIndex with
            | none => .ok { state := s, rejected := some "No acting holder" }
            | some p =>
              match d with
              | .trade qty =>
                if qty % 2 = 0 ∧ qty ≤ p.stocks.get dc ∧ qty / 2 ≤ s.stockBank sv then
                  .ok { state := applyMergerDecision s m sv dc (.trade qty),
                        rejected := none }
                else .ok { state := s, rejected := some "Invalid trade" }
              | .sell =>
                .ok { state := applyMergerDecision s m sv dc .sell, rejected := none }
              | .keep =>
                .ok { state := applyMergerDecision s m sv dc .keep, rejected := none }
          | _, _ => .ok { state := s, rejected := some "Merger state incomplete" }
  | .buy_stocks purchases =>
    if s.phase ≠ .buy_stock then .ok { state := s, rejected := some "Wrong phase" }
    else if actor ≠ s.currentPlayerIndex then
      .ok { state := s, rejected := some "Not your turn" }
    else
      match applyPurchases s purchases with
      | none => .ok { state := s, rejected := some "Invalid purchase" }
      | some _ => .ok { state := buyStocks s purchases, rejected := none }
  | .end_turn =>
    if s.phase ≠ .buy_stock then .ok { state := s, rejected := some "Wrong phase" }
    else if actor ≠ s.currentPlayerIndex then
      .ok { state := s, rejected := some "Not your turn" }
    else .ok { state := endTurn s, rejected := none }
  | .discard_tile tid =>
    match parseTileId tid with
    | .error e => .error (.invalidTileId e)
    | .ok t =>
      if actor ≠ s.currentPlayerIndex then
        .ok { state := s, rejected := some "Not your turn" }
      else
        match s.players.get? s.currentPlayerIndex with
        | none => .ok { state := s, rejected := some "No acting player" }
        | some p =>
          if t ∈ p.tiles then .ok { state := discardTile s t, rejected := none }
          else .ok { state := s, rejected := some "Tile not in hand" }
  | .end_game_vote vote =>
    if s.phase = .place_tile ∨ s.phase = .buy_stock then
      if actor < s.players.length then
        .ok { state := castEndGameVote s actor vote, rejected := none }
      else .ok { state := s, rejected := some "No such player" }
    else .ok { state := s, rejected := some "Wrong phase" }
  | .new_game names bag =>
    if names.length = 4 then
      .ok { state := initializeGameCore names bag, rejected := none }
    else .error (.wrongPlayerCount names.length)

/-- Proof helper: the bracket of a size as a total index, 0 meaning "no
bracket" and i + 1 meaning bracket i of the price table. -/
def bracketIdx (size : Nat) : Nat :=
  if 41 ≤ size then 8
  else if 31 ≤ size then 7
  else if 21 ≤ size then 6
  else if 11 ≤ size then 5
  else if 6 ≤ size then 4
  else if 4 ≤ size then 3
  else if size = 3 then 2
  else if size = 2 then 1
  else 0

/-- Proof helper: price of a tier at a total bracket index. -/
def priceAt (t : Tier) (n : Nat) : Nat :=
  match n with
  | 0 => 0
  | i + 1 => (BASE_PRICES t).getD i 0

/-- Sample game: four seated players over the unshuffled tile order. -/
def sampleState : GameState :=
  initializeGameCore ["Alice", "Bob", "Charlie", "Diana"] generateAllTiles

/-- The first sample player exactly as dealt by `sampleState`. -/
def sampleAlice : PlayerState :=
  initialPlayer 0 "Alice" (generateAllTiles.tail.take 6)

/-- Sample game with one active chain, for exercising stock purchases. -/
def buyState : GameState :=
  { sampleState with
    chains := fun c =>
      if c = ChainName.sackson then
        { tiles := [{ row := 5, col := 'D' }, { row := 5, col := 'E' }]
          isActive := true
          isSafe := false }
      else sampleState.chains c }

/-- Sample game with two contiguous unincorporated tiles awaiting a chain
foundation. -/
def foundationState : GameState :=
  { sampleState with
    board := fun t =>
      if t = { row := 5, col := 'E' } ∨ t = { row := 5, col := 'F' } then
        { placed := true, chain := none }
      else { placed := false, chain := none }
    lastPlacedTile := some { row := 5, col := 'F' } }

/-- Sample game with a two-tile hand and a one-tile bag, for exercising
discards. -/
def discardState : GameState :=
  { sampleState with
    players :=
      [initialPlayer 0 "Alice" [{ row := 1, col := 'A' }, { row := 2, col := 'B' }],
       initialPlayer 1 "Bob" [],
       initialPlayer 2 "Charlie" [],
       initialPlayer 3 "Diana" []]
    tileBag := [{ row := 9, col := 'L' }] }

/-- Sample holders for exercising stockholder rankings: counts 5, 3, 3
and 0 in sackson. -/
def rankPlayers : List PlayerState :=
  [{ initialPlayer 0 "Alice" [] with stocks := Stocks.zero.set ChainName.sackson 5 },
   { initialPlayer 1 "Bob" [] with stocks := Stocks.zero.set ChainName.sackson 3 },
   { initialPlayer 2 "Charlie" [] with stocks := Stocks.zero.set ChainName.sackson 3 },
   initialPlayer 3 "Diana" []]

/-! ### Price table lemmas -/

set_option maxHeartbeats 2000000 in
theorem getStockPrice_eq_priceAt (c : ChainName) (s : Nat) :
    getStockPrice c s = priceAt c.tier (bracketIdx s) := by
  unfold getStockPrice sizeBracket bracketIdx
  split_ifs <;> rfl

set_option maxHeartbeats 2000000 in
theorem bracketIdx_mono {s1 s2 : Nat} (h : s1 ≤ s2) :
    bracketIdx s1 ≤ bracketIdx s2 := by
  unfold bracketIdx
  split_ifs <;> omega

theorem bracketIdx_le (s : Nat) : bracketIdx s ≤ 8 := by
  unfold bracketIdx
  split_ifs <;> omega

theorem bracketIdx_pos {s : Nat} (h : 2 ≤ s) : 1 ≤ bracketIdx s := by
  unfold bracketIdx
  split_ifs <;> omega

theorem priceAt_mono :
    ∀ (t : Tier), ∀ j ≤ 8, ∀ i ≤ j, priceAt t i ≤ priceAt t j := by
  intro t
  cases t <;> decide

theorem priceAt_strict :
    ∀ i ≤ 8, 1 ≤ i →
      priceAt Tier.budget i < priceAt Tier.midrange i
      ∧ priceAt Tier.midrange i < priceAt Tier.premium i := by
  decide

/-- C7: `getStockPrice` returns 0 at size 0, is non-decreasing in size
within a tier, and at every shared size bracket (every size of at least
2) the premium price strictly exceeds the midrange price, which strictly
exceeds the budget price. -/
theorem getStockPrice_spec :
    (∀ c : ChainName, getStockPrice c 0 = 0)
    ∧ (∀ (c : ChainName) (s1 s2 : Nat), s1 ≤ s2 →
        getStockPrice c s1 ≤ getStockPrice c s2)
    ∧ (∀ (cb cm cp : ChainName) (s : Nat),
        cb.tier = Tier.budget → cm.tier = Tier.midrange → cp.tier = Tier.premium →
        2 ≤ s →
        getStockPrice cb s < getStockPrice cm s
        ∧ getStockPrice cm s < getStockPrice cp s) := by
  refine ⟨fun c => rfl, ?_, ?_⟩
  · intro c s1 s2 h
    rw [getStockPrice_eq_priceAt, getStockPrice_eq_priceAt]
    exact priceAt_mono c.tier (bracketIdx s2) (bracketIdx_le s2) (bracketIdx s1)
      (bracketIdx_mono h)
  · intro cb cm cp s hb hm hp h2
    have hstrict := priceAt_strict (bracketIdx s) (bracketIdx_le s) (bracketIdx_pos h2)
    constructor
    · rw [getStockPrice_eq_priceAt, getStockPrice_eq_priceAt, hb, hm]
      exact hstrict.1
    · rw [getStockPrice_eq_priceAt, getStockPrice_eq_priceAt, hm, hp]
      exact hstrict.2

/-- Witness for C7 at concrete sizes and chains. -/
theorem getStockPrice_spec_witness :
    getStockPrice ChainName.sackson 0 = 0
    ∧ ((3 : Nat) ≤ 12 ∧ getStockPrice ChainName.tower 3 ≤ getStockPrice ChainName.tower 12)
    ∧ (ChainName.tier ChainName.sackson = Tier.budget
       ∧ ChainName.tier ChainName.american = Tier.midrange
       ∧ ChainName.tier ChainName.imperial = Tier.premium
       ∧ (2 : Nat) ≤ 6
       ∧ getStockPrice ChainName.sackson 6 < getStockPrice ChainName.american 6
       ∧ getStockPrice ChainName.american 6 < getStockPrice ChainName.imperial 6) :=
  ⟨getStockPrice_spec.1 ChainName.sackson,
   ⟨by decide, getStockPrice_spec.2.1 ChainName.tower 3 12 (by decide)⟩,
   rfl, rfl, rfl, by decide,
   (getStockPrice_spec.2.2 ChainName.sackson ChainName.american ChainName.imperial 6
      rfl rfl rfl (by decide)).1,
   (getStockPrice_spec.2.2 ChainName.sackson ChainName.american ChainName.imperial 6
      rfl rfl rfl (by decide)).2⟩

/-! ### Tile-id parsing lemmas -/

theorem parseTileIdChars_ok_iff (l : List Char) :
    exceptOk (parseTileIdChars l) = tileIdPattern l := by
  unfold parseTileIdChars tileIdPattern
  rcases l with _ | ⟨d, _ | ⟨c, _ | ⟨e, t⟩⟩⟩ <;> simp [exceptOk]
  split_ifs with h <;> simp [exceptOk, h]
  omega

/-- C8 counterexample: "0A" parses successfully (the tests pin this down:
the regex allows a row digit 0), yet "0A" does not match the pattern
`[1-9][A-L]` stated by the spec, so parse failure is not equivalent to
that pattern failing. -/
theorem parseTileId_cex :
    parseTileId "0A" = Except.ok { row := 0, col := 'A' }
    ∧ specTileIdPattern "0A".data = false :=
  ⟨rfl, rfl⟩

/-- C8 (amended): `parseTileId` fails with an InvalidTileId error exactly
when the input does not match `[0-9][A-L]` (the digit 0 is accepted,
although row 0 never occurs in play); on a matching string it returns the
row digit and the column letter. -/
theorem parseTileId_spec (s : String) :
    (exceptOk (parseTileId s) = tileIdPattern s.data)
    ∧ (∀ d c, s.data = [d, c] → tileIdPattern s.data = true →
        parseTileId s = Except.ok { row := d.toNat - 48, col := c }) := by
  constructor
  · exact parseTileIdChars_ok_iff s.data
  · intro d c hdc hpat
    unfold parseTileId parseTileIdChars
    rw [hdc]
    rw [hdc] at hpat
    unfold tileIdPattern at hpat
    dsimp only at hpat ⊢
    rw [if_pos hpat]

/-- Witness for C8 at the concrete input "5F". -/
theorem parseTileId_spec_witness :
    ("5F".data = ['5', 'F'] ∧ tileIdPattern "5F".data = true)
    ∧ parseTileId "5F" = Except.ok { row := 5, col := 'F' } :=
  ⟨⟨rfl, rfl⟩, (parseTileId_spec "5F").2 '5' 'F' rfl rfl⟩

/-! ### List update lemmas -/

theorem updateAt_length {α : Type} (f : α → α) :
    ∀ (i : Nat) (l : List α), (updateAt i f l).length = l.length
  | _, [] => by simp [updateAt]
  | 0, _ :: _ => by simp [updateAt]
  | n + 1, _ :: xs => by
    simp [updateAt, updateAt_length f n xs]

theorem updateAt_get?_self {α : Type} (f : α → α) :
    ∀ (i : Nat) (l : List α), (updateAt i f l).get? i = (l.get? i).map f
  | _, [] => by simp [updateAt]
  | 0, _ :: _ => by simp [updateAt]
  | n + 1, _ :: xs => by
    simpa [updateAt] using updateAt_get?_self f n xs

/-! ### Turn handover (C3) -/

/-- C3 counterexample: from the freshly initialised sample game (player
0 acting, bag nonempty) `endTurn` advances to player 1, but the drawn
tile goes to departing player 0 (hand 6 → 7) while new current player
1's hand stays at 6 — the claim says the draw goes to the new current
player's hand. -/
theorem endTurn_cex :
    (endTurn sampleState).currentPlayerIndex = 1
    ∧ sampleState.tileBag ≠ []
    ∧ ((endTurn sampleState).players.get? 1).map (fun p => p.tiles.length) = some 6
    ∧ (sampleState.players.get? 1).map (fun p => p.tiles.length) = some 6
    ∧ ((endTurn sampleState).players.get? 0).map (fun p => p.tiles.length) = some 7 := by
  refine ⟨rfl, ?_, rfl, rfl, rfl⟩
  decide

/-- C3 (amended): `endTurn` advances `currentPlayerIndex` modulo the
player count, resets the phase to `place_tile`, zeroes
`stocksPurchasedThisTurn`, clears `lastPlacedTile`, and draws one tile
into the hand of the departing player — the player who just ended the
turn, not the new current player (a no-op if the tile bag is empty). -/
theorem endTurn_spec (s : GameState) :
    (endTurn s).currentPlayerIndex = (s.currentPlayerIndex + 1) % s.players.length
    ∧ (endTurn s).phase = Phase.place_tile
    ∧ (endTurn s).stocksPurchasedThisTurn = 0
    ∧ (endTurn s).lastPlacedTile = none
    ∧ (s.tileBag = [] → (endTurn s).players = s.players ∧ (endTurn s).tileBag = [])
    ∧ (∀ u rest, s.tileBag = u :: rest →
        (endTurn s).tileBag = rest
        ∧ (endTurn s).players
            = updateAt s.currentPlayerIndex
                (fun p => { p with tiles := p.tiles ++ [u] }) s.players) := by
  unfold endTurn drawTile
  cases htb : s.tileBag with
  | nil => simp [htb]
  | cons u rest => simp [htb]

/-- Witness for C3 (amended) at the sample game. -/
theorem endTurn_spec_witness :
    (sampleState.tileBag
        = { row := 3, col := 'B' } :: sampleState.tileBag.tail)
    ∧ ((endTurn sampleState).tileBag = sampleState.tileBag.tail
        ∧ (endTurn sampleState).players
            = updateAt sampleState.currentPlayerIndex
                (fun p => { p with tiles := p.tiles ++ [{ row := 3, col := 'B' }] })
                sampleState.players) :=
  ⟨by decide,
   (endTurn_spec sampleState).2.2.2.2.2 { row := 3, col := 'B' }
     sampleState.tileBag.tail (by decide)⟩

/-! ### Bag operations (C10) -/

/-- C10: `drawTile` is a no-op on an empty bag; `discardTile` is a no-op
(returning the snapshot unchanged) when the tile is not in the acting
player's hand; and when the tile is in a duplicate-free hand and a
replacement is available, the discarded tile leaves the hand, the
replacement is drawn, and the hand size is unchanged. -/
theorem discardTile_spec (s : GameState) (t : TileId) (p0 : PlayerState)
    (hp : s.players.get? s.currentPlayerIndex = some p0) :
    (s.tileBag = [] → drawTile s = s)
    ∧ (t ∉ p0.tiles → discardTile s t = s)
    ∧ (∀ u rest, t ∈ p0.tiles → p0.tiles.Nodup → s.tileBag = u :: rest → t ≠ u →
        (discardTile s t).tileBag = rest
        ∧ ∃ p1, (discardTile s t).players.get? s.currentPlayerIndex = some p1
            ∧ p1.tiles.length = p0.tiles.length
            ∧ t ∉ p1.tiles) := by
  refine ⟨?_, ?_, ?_⟩
  · intro hbag
    unfold drawTile
    rw [hbag]
  · intro hmem
    unfold discardTile
    rw [hp]
    dsimp only
    rw [if_neg hmem]
  · intro u rest hmem hnodup hbag hne
    unfold discardTile
    rw [hp]
    dsimp only
    rw [if_pos hmem]
    unfold drawTile
    simp only [hbag]
    constructor
    · trivial
    · refine ⟨{ p0 with tiles := p0.tiles.erase t ++ [u] }, ?_, ?_, ?_⟩
      · rw [updateAt_get?_self, updateAt_get?_self, hp]
        rfl
      · simp [List.length_erase_of_mem hmem]
        have : 1 ≤ p0.tiles.length := List.length_pos_of_mem hmem
        omega
      · intro hcontra
        rcases List.mem_append.mp hcontra with h1 | h1
        · exact hnodup.not_mem_erase h1
        · simp at h1
          exact hne h1

/-- Witness for C10: a sample game where Alice holds tiles 1A and 2B and
the bag holds the single tile 9L; discarding 1A draws 9L. -/
theorem discardTile_spec_witness :
    (discardState.players.get? discardState.currentPlayerIndex
        = some (initialPlayer 0 "Alice" [{ row := 1, col := 'A' }, { row := 2, col := 'B' }]))
    ∧ ({ row := 1, col := 'A' } : TileId) ∈ (initialPlayer 0 "Alice"
        [{ row := 1, col := 'A' }, { row := 2, col := 'B' }]).tiles
    ∧ (initialPlayer 0 "Alice"
        [{ row := 1, col := 'A' }, { row := 2, col := 'B' }]).tiles.Nodup
    ∧ discardState.tileBag = [{ row := 9, col := 'L' }]
    ∧ ({ row := 1, col := 'A' } : TileId) ≠ { row := 9, col := 'L' }
    ∧ ((discardTile discardState { row := 1, col := 'A' }).tileBag = []
        ∧ ∃ p1, (discardTile discardState { row := 1, col := 'A' }).players.get?
              discardState.currentPlayerIndex = some p1
            ∧ p1.tiles.length = (initialPlayer 0 "Alice"
                [{ row := 1, col := 'A' }, { row := 2, col := 'B' }]).tiles.length
            ∧ ({ row := 1, col := 'A' } : TileId) ∉ p1.tiles) :=
  ⟨by decide, by decide, by decide, by decide, by decide,
   (discardTile_spec discardState { row := 1, col := 'A' }
      (initialPlayer 0 "Alice" [{ row := 1, col := 'A' }, { row := 2, col := 'B' }])
      (by decide)).2.2
     { row := 9, col := 'L' } [] (by decide) (by decide) (by decide) (by decide)⟩

/-! ### Stock purchase safety (C1) -/

theorem applyPurchases_safe (purchases : List Purchase) :
    ∀ (s s2 : GameState) (p0 : PlayerState),
      s.players.get? s.currentPlayerIndex = some p0 →
      0 ≤ p0.cash →
      s.stocksPurchasedThisTurn ≤ MAX_STOCKS_PER_TURN →
      applyPurchases s purchases = some s2 →
      s2.currentPlayerIndex = s.currentPlayerIndex
      ∧ s2.stocksPurchasedThisTurn ≤ MAX_STOCKS_PER_TURN
      ∧ ∃ p1, s2.players.get? s2.currentPlayerIndex = some p1 ∧ 0 ≤ p1.cash := by
  induction purchases with
  | nil =>
    intro s s2 p0 hp hc ht happ
    unfold applyPurchases at happ
    cases happ
    exact ⟨rfl, ht, p0, hp, hc⟩
  | cons pur rest ih =>
    intro s s2 p0 hp hc ht happ
    unfold applyPurchases at happ
    rw [hp] at happ
    dsimp only at happ
    split_ifs at happ with hcond
    obtain ⟨hact, hbank, hcost, hcap⟩ := hcond
    obtain ⟨hidx, hspt, p1, hp1, hc1⟩ := ih _ s2 _ (by rw [updateAt_get?_self, hp]; rfl)
      (by dsimp only; omega) (by dsimp only; exact hcap) happ
    exact ⟨hidx, hspt, p1, hp1, hc1⟩

/-- C1: `buyStocks` validates each requested purchase against chain
activity, bank stock, remaining cash and the cumulative 3-share per-turn
cap, applying the list atomically; consequently, starting from a snapshot
whose acting player has non-negative cash and whose per-turn purchase
count is within the cap, the acting player's cash stays non-negative and
the per-turn purchase count stays at most 3 after any `buyStocks` call. -/
theorem buyStocks_spec (s : GameState) (purchases : List Purchase) (p0 : PlayerState)
    (hp : s.players.get? s.currentPlayerIndex = some p0)
    (hc : 0 ≤ p0.cash)
    (ht : s.stocksPurchasedThisTurn ≤ MAX_STOCKS_PER_TURN) :
    (buyStocks s purchases).stocksPurchasedThisTurn ≤ MAX_STOCKS_PER_TURN
    ∧ ∃ p1, (buyStocks s purchases).players.get?
        (buyStocks s purchases).currentPlayerIndex = some p1 ∧ 0 ≤ p1.cash := by
  unfold buyStocks
  cases happ : applyPurchases s purchases with
  | none => exact ⟨ht, p0, hp, hc⟩
  | some s2 =>
    obtain ⟨hidx, hspt, p1, hp1, hc1⟩ := applyPurchases_safe purchases s s2 p0 hp hc ht happ
    dsimp only
    split_ifs with hempty
    · exact ⟨hspt, p1, hp1, hc1⟩
    · exact ⟨hspt, p1, hp1, hc1⟩

/-- Witness for C1: buying two sackson shares in a sample game with an
active two-tile sackson chain. -/
theorem buyStocks_spec_witness :
    (buyState.players.get? buyState.currentPlayerIndex = some sampleAlice)
    ∧ (0 ≤ sampleAlice.cash)
    ∧ buyState.stocksPurchasedThisTurn ≤ MAX_STOCKS_PER_TURN
    ∧ ((buyStocks buyState [{ chain := ChainName.sackson, quantity := 2 }]).stocksPurchasedThisTurn
          ≤ MAX_STOCKS_PER_TURN
        ∧ ∃ p1, (buyStocks buyState [{ chain := ChainName.sackson, quantity := 2 }]).players.get?
            (buyStocks buyState
              [{ chain := ChainName.sackson, quantity := 2 }]).currentPlayerIndex = some p1
          ∧ 0 ≤ p1.cash) :=
  ⟨by decide, by decide, by decide,
   buyStocks_spec buyState [{ chain := ChainName.sackson, quantity := 2 }] sampleAlice
     (by decide) (by decide) (by decide)⟩

/-! ### Chain founding (C4) -/

theorem stocks_get_set_self (st : Stocks) (c : ChainName) (n : Nat) :
    (st.set c n).get c = n := by
  cases c <;> rfl

/-- C4: with a pending foundation (a recorded last placed tile),
`foundChain` activates the chosen chain on the founding tile set (the
connected unincorporated tiles reachable from the last placed tile),
marks those board tiles with the chain name, grants the founding player
exactly 1 free share taken from the bank (0 if the bank is exhausted),
decrements the bank accordingly, and sets the phase to `buy_stock`. -/
theorem foundChain_spec (s : GameState) (chosenName : ChainName) (t : TileId)
    (p0 : PlayerState)
    (hlast : s.lastPlacedTile = some t)
    (hp : s.players.get? s.currentPlayerIndex = some p0) :
    ((foundChain s chosenName).chains chosenName).isActive = true
    ∧ ((foundChain s chosenName).chains chosenName).tiles
        = connectedUnincorporated s.board t
    ∧ (∀ id ∈ connectedUnincorporated s.board t,
        ((foundChain s chosenName).board id).chain = some chosenName
        ∧ ((foundChain s chosenName).board id).placed = (s.board id).placed)
    ∧ ((foundChain s chosenName).players.get? s.currentPlayerIndex).map
        (fun p => p.stocks.get chosenName)
        = some (p0.stocks.get chosenName
            + (if s.stockBank chosenName = 0 then 0 else 1))
    ∧ (foundChain s chosenName).stockBank chosenName
        = s.stockBank chosenName - (if s.stockBank chosenName = 0 then 0 else 1)
    ∧ (foundChain s chosenName).phase = Phase.buy_stock := by
  unfold foundChain
  rw [hlast]
  dsimp only
  refine ⟨?_, ?_, ?_, ?_, ?_, ?_⟩
  · rw [if_pos rfl]
  · rw [if_pos rfl]
  · intro id hid
    rw [if_pos hid]
    exact ⟨rfl, rfl⟩
  · rw [updateAt_get?_self, hp]
    dsimp only [Option.map]
    rw [stocks_get_set_self]
  · rw [if_pos rfl]
  · rfl

/-- Witness for C4: founding sackson on the two contiguous
unincorporated tiles 5E and 5F of the sample foundation game. -/
theorem foundChain_spec_witness :
    (foundationState.lastPlacedTile = some { row := 5, col := 'F' })
    ∧ (foundationState.players.get? foundationState.currentPlayerIndex = some sampleAlice)
    ∧ (((foundChain foundationState ChainName.sackson).chains ChainName.sackson).isActive = true
        ∧ ((foundChain foundationState ChainName.sackson).chains ChainName.sackson).tiles
            = connectedUnincorporated foundationState.board { row := 5, col := 'F' }
        ∧ (∀ id ∈ connectedUnincorporated foundationState.board { row := 5, col := 'F' },
            ((foundChain foundationState ChainName.sackson).board id).chain
              = some ChainName.sackson
            ∧ ((foundChain foundationState ChainName.sackson).board id).placed
              = (foundationState.board id).placed)
        ∧ ((foundChain foundationState ChainName.sackson).players.get?
              foundationState.currentPlayerIndex).map (fun p => p.stocks.get ChainName.sackson)
            = some (sampleAlice.stocks.get ChainName.sackson
                + (if foundationState.stockBank ChainName.sackson = 0 then 0 else 1))
        ∧ (foundChain foundationState ChainName.sackson).stockBank ChainName.sackson
            = foundationState.stockBank ChainName.sackson
              - (if foundationState.stockBank ChainName.sackson = 0 then 0 else 1)
        ∧ (foundChain foundationState ChainName.sackson).phase = Phase.buy_stock) :=
  ⟨rfl, by decide,
   foundChain_spec foundationState ChainName.sackson { row := 5, col := 'F' } sampleAlice
     rfl (by decide)⟩

/-! ### Game initialisation (C5) -/

theorem generateAllTiles_length : generateAllTiles.length = 108 := by decide

theorem generateAllTiles_nodup : generateAllTiles.Nodup := by decide

/-- C5: for any list of exactly 4 names and any shuffle of the 108
tiles, `initializeGame` succeeds and produces 4 players with 6000 cash,
6 tiles and all-zero stock each; all chains inactive; a bank of 25 shares
per chain; exactly one pre-placed board tile; 83 tiles left in the bag;
phase `place_tile`; and player 0 acting. -/
theorem initializeGame_spec (names : List String) (bag : List TileId)
    (h4 : names.length = 4) (hperm : List.Perm bag generateAllTiles) :
    initializeGame names bag = Except.ok (initializeGameCore names bag)
    ∧ (initializeGameCore names bag).players.length = 4
    ∧ (∀ p ∈ (initializeGameCore names bag).players,
        p.cash = 6000 ∧ p.tiles.length = 6 ∧ p.stocks = Stocks.zero)
    ∧ (∀ c, ((initializeGameCore names bag).chains c).isActive = false)
    ∧ (∀ c, (initializeGameCore names bag).stockBank c = 25)
    ∧ generateAllTiles.countP (fun t => ((initializeGameCore names bag).board t).placed) = 1
    ∧ (initializeGameCore names bag).tileBag.length = 83
    ∧ (initializeGameCore names bag).phase = Phase.place_tile
    ∧ (initializeGameCore names bag).currentPlayerIndex = 0 := by
  have hlen : bag.length = 108 := by
    rw [hperm.length_eq]
    exact generateAllTiles_length
  refine ⟨?_, ?_, ?_, fun c => rfl, fun c => rfl, ?_, ?_, rfl, rfl⟩
  · unfold initializeGame
    rw [if_pos h4]
  · simp [initializeGameCore, List.enum_length, h4]
  · intro p hpmem
    simp only [initializeGameCore, List.mem_map] at hpmem
    obtain ⟨e, he, rfl⟩ := hpmem
    refine ⟨rfl, ?_, rfl⟩
    have he1 : names[e.1]? = some e.2 := List.mem_enum_iff_getElem?.mp he
    have he2 : e.1 < names.length := (List.getElem?_eq_some.mp he1).1
    simp only [initialPlayer, List.length_take, List.length_drop, List.length_tail, hlen]
    omega
  · cases bag with
    | nil => simp at hlen
    | cons b0 brest =>
      have hmem : b0 ∈ generateAllTiles := hperm.subset (List.mem_cons_self b0 brest)
      have hcongr : (generateAllTiles.countP
            fun t => ((initializeGameCore names (b0 :: brest)).board t).placed)
          = generateAllTiles.countP (fun t => t == b0) := by
        refine List.countP_congr (fun x hx => ?_)
        show (((initializeGameCore names (b0 :: brest)).board x).placed = true)
          ↔ ((x == b0) = true)
        have hred : ((initializeGameCore names (b0 :: brest)).board x).placed
            = decide (some b0 = some x) := rfl
        rw [hred]
        simp only [decide_eq_true_eq, Option.some.injEq, beq_iff_eq]
        exact eq_comm
      rw [hcongr]
      exact List.count_eq_one_of_mem generateAllTiles_nodup hmem
  · simp only [initializeGameCore, List.length_drop, List.length_tail, hlen, h4]

/-- Witness for C5 at the concrete four names over the unshuffled tile
order. -/
theorem initializeGame_spec_witness :
    (["Alice", "Bob", "Charlie", "Diana"].length = 4
      ∧ List.Perm generateAllTiles generateAllTiles)
    ∧ (initializeGame ["Alice", "Bob", "Charlie", "Diana"] generateAllTiles
          = Except.ok sampleState
      ∧ sampleState.players.length = 4
      ∧ (∀ p ∈ sampleState.players, p.cash = 6000 ∧ p.tiles.length = 6 ∧ p.stocks = Stocks.zero)
      ∧ (∀ c, (sampleState.chains c).isActive = false)
      ∧ (∀ c, sampleState.stockBank c = 25)
      ∧ generateAllTiles.countP (fun t => (sampleState.board t).placed) = 1
      ∧ sampleState.tileBag.length = 83
      ∧ sampleState.phase = Phase.place_tile
      ∧ sampleState.currentPlayerIndex = 0) :=
  ⟨⟨by decide, List.Perm.refl _⟩,
   initializeGame_spec ["Alice", "Bob", "Charlie", "Diana"] generateAllTiles (by decide)
     (List.Perm.refl _)⟩

/-! ### Action boundary (C9) -/

/-- C9 counterexample: submitting `new_game` with only 3 player names
makes the engine raise, and the raised error is a wrong-player-count
error, not a tile-id parse failure — so validation failures other than an
unparsable tile id can escape as exceptions (the unit tests pin this
down: `initializeGame` throws "Game requires exactly 4 players"). -/
theorem dispatch_cex :
    dispatch sampleState 0 (Action.new_game ["Alice", "Bob", "Charlie"] [])
      = Except.error (EngineError.wrongPlayerCount 3)
    ∧ (EngineError.wrongPlayerCount 3).isParseFailure = false :=
  ⟨rfl, rfl⟩

/-- C9 (amended): across the full ten-action boundary — tile placement,
chain founding, merger survivor choice, merger bonus payout, merger
stock disposition, stock purchase, turn end, tile discard, end-game vote
and new game — with every action validated against the current phase and
turn ownership taken from the authoritative snapshot (the merger's own
holder index during stock disposition; an end-game vote open to every
seated player in the `place_tile` and `buy_stock` phases), the engine
raises only for genuinely malformed input: an unparsable tile id, which
fails fast as a parse error before any state inspection, or a `new_game`
whose player-name list does not have exactly 4 entries.  Every other
validation failure is recovered locally: the dispatcher returns the
unchanged snapshot together with a machine-readable reason. -/
theorem dispatch_spec (s : GameState) (actor : Nat) (a : Action) :
    (∀ e, dispatch s actor a = Except.error e →
        e.isParseFailure = true
        ∨ ∃ n, e = EngineError.wrongPlayerCount n ∧ n ≠ 4)
    ∧ (∀ st2 r, dispatch s actor a = Except.ok { state := st2, rejected := some r } →
        st2 = s) := by
  constructor
  · intro e he
    cases a <;>
      simp only [dispatch] at he <;>
      (repeat' split at he) <;>
      first
        | (cases he; exact Or.inl rfl)
        | (cases he; exact Or.inr ⟨_, rfl, by assumption⟩)
        | cases he
  · intro st2 r hok
    cases a <;>
      simp only [dispatch] at hok <;>
      (repeat' split at hok) <;>
      first
        | (simp only [Except.ok.injEq, ActionResult.mk.injEq] at hok
           first
             | exact hok.1.symm
             | exact absurd hok.2 (by simp))
        | cases hok

/-- Witness for C9 (amended): a stock purchase attempted in the wrong
phase at the fresh sample game is rejected with a reason and leaves the
snapshot unchanged. -/
theorem dispatch_spec_witness :
    (dispatch sampleState 0
        (Action.buy_stocks [{ chain := ChainName.sackson, quantity := 1 }])
        = Except.ok { state := sampleState, rejected := some "Wrong phase" })
    ∧ sampleState = sampleState :=
  ⟨rfl,
   (dispatch_spec sampleState 0
      (Action.buy_stocks [{ chain := ChainName.sackson, quantity := 1 }])).2
     sampleState "Wrong phase" rfl⟩

/-! ### Final scoring (C6) -/

/-- C6: `calculateFinalScores` returns a permutation of the players with
every holding liquidated — each player's cash grows by the liquidation
proceeds (held shares of every active chain at its current price plus the
majority/minority bonus share with tie-splitting) and every stock holding
zeroed — sorted descending by resulting cash. -/
theorem calculateFinalScores_spec (s : GameState) :
    (calculateFinalScores s).Pairwise (fun a b => b.cash ≤ a.cash)
    ∧ List.Perm (calculateFinalScores s)
        (s.players.map (fun p =>
          { p with
            cash := p.cash + (liquidationProceeds s p : Nat)
            stocks := Stocks.zero }))
    ∧ (∀ p ∈ calculateFinalScores s, p.stocks = Stocks.zero) := by
  have htrans : ∀ a b c : PlayerState, byCash a b → byCash b c → byCash a c := by
    intro a b c hab hbc
    simp only [byCash, decide_eq_true_eq] at hab hbc ⊢
    omega
  have htot : ∀ a b : PlayerState, byCash a b || byCash b a := by
    intro a b
    simp only [byCash, Bool.or_eq_true, decide_eq_true_eq]
    omega
  refine ⟨?_, ?_, ?_⟩
  · have hs := List.sorted_mergeSort htrans htot
      (s.players.map (fun p =>
        { p with
          cash := p.cash + (liquidationProceeds s p : Nat)
          stocks := Stocks.zero }))
    refine hs.imp ?_
    intro a b h
    simpa [byCash] using h
  · exact List.mergeSort_perm _ _
  · intro p hp
    have hp2 : p ∈ s.players.map (fun q =>
        { q with
          cash := q.cash + (liquidationProceeds s q : Nat)
          stocks := Stocks.zero }) :=
      (List.mergeSort_perm _ _).subset hp
    obtain ⟨q, hq, rfl⟩ := List.mem_map.mp hp2
    rfl

/-- Witness for C6 at the sample game with an active sackson chain. -/
theorem calculateFinalScores_spec_witness :
    (calculateFinalScores buyState).Pairwise (fun a b => b.cash ≤ a.cash)
    ∧ List.Perm (calculateFinalScores buyState)
        (buyState.players.map (fun p =>
          { p with
            cash := p.cash + (liquidationProceeds buyState p : Nat)
            stocks := Stocks.zero }))
    ∧ (∀ p ∈ calculateFinalScores buyState, p.stocks = Stocks.zero) :=
  calculateFinalScores_spec buyState

/-! ### Stockholder ranking lemmas (C2) -/

theorem pairwise_holding_head_bound (chain : ChainName) (a : PlayerState)
    (t : List PlayerState)
    (hp : (a :: t).Pairwise (fun x y => y.stocks.get chain ≤ x.stocks.get chain)) :
    ∀ p ∈ a :: t, p.stocks.get chain ≤ a.stocks.get chain := by
  intro p hpmem
  rcases List.mem_cons.mp hpmem with rfl | hx
  · exact Nat.le_refl _
  · exact (List.pairwise_cons.mp hp).1 p hx

theorem takeWhile_holding_eq_filter (chain : ChainName) (m : Nat) :
    ∀ (l : List PlayerState), (∀ p ∈ l, p.stocks.get chain ≤ m) →
      l.Pairwise (fun x y => y.stocks.get chain ≤ x.stocks.get chain) →
      l.takeWhile (fun p => decide (p.stocks.get chain = m))
        = l.filter (fun p => decide (p.stocks.get chain = m))
  | [], _, _ => rfl
  | a :: t, hb, hp => by
    by_cases h : a.stocks.get chain = m
    · rw [List.takeWhile_cons_of_pos (by simpa using h),
        List.filter_cons_of_pos (by simpa using h)]
      exact congrArg _ (takeWhile_holding_eq_filter chain m t
        (fun p hmem => hb p (List.mem_cons_of_mem _ hmem)) hp.of_cons)
    · rw [List.takeWhile_cons_of_neg (by simpa using h)]
      symm
      rw [List.filter_eq_nil_iff]
      intro x hx
      have hxa : x.stocks.get chain ≤ a.stocks.get chain :=
        pairwise_holding_head_bound chain a t hp x hx
      have ham : a.stocks.get chain ≤ m := hb a (List.mem_cons_self a t)
      simp only [decide_eq_true_eq]
      omega

theorem dropWhile_holding_lt (chain : ChainName) (m : Nat) :
    ∀ (l : List PlayerState), (∀ p ∈ l, p.stocks.get chain ≤ m) →
      l.Pairwise (fun x y => y.stocks.get chain ≤ x.stocks.get chain) →
      ∀ p ∈ l.dropWhile (fun p => decide (p.stocks.get chain = m)),
        p.stocks.get chain < m
  | [], _, _ => by simp
  | a :: t, hb, hp => by
    by_cases h : a.stocks.get chain = m
    · rw [List.dropWhile_cons_of_pos (by simpa using h)]
      exact dropWhile_holding_lt chain m t
        (fun p hmem => hb p (List.mem_cons_of_mem _ hmem)) hp.of_cons
    · rw [List.dropWhile_cons_of_neg (by simpa using h)]
      intro p hpmem
      have hxa : p.stocks.get chain ≤ a.stocks.get chain :=
        pairwise_holding_head_bound chain a t hp p hpmem
      have ham : a.stocks.get chain ≤ m := hb a (List.mem_cons_self a t)
      omega

theorem rankingsOfSorted_majority_mem (chain : ChainName) (l : List PlayerState)
    (hp : l.Pairwise (fun x y => y.stocks.get chain ≤ x.stocks.get chain))
    (p : PlayerState) :
    p ∈ (rankingsOfSorted chain l).majority
      ↔ p ∈ l ∧ ∀ q ∈ l, q.stocks.get chain ≤ p.stocks.get chain := by
  cases l with
  | nil => simp [rankingsOfSorted]
  | cons top t =>
    have hbound := pairwise_holding_head_bound chain top t hp
    have hmaj : (rankingsOfSorted chain (top :: t)).majority
        = (top :: t).takeWhile
            (fun q => decide (q.stocks.get chain = top.stocks.get chain)) := by
      unfold rankingsOfSorted
      cases hrest : (top :: t).dropWhile
          (fun q => decide (q.stocks.get chain = top.stocks.get chain)) <;>
        simp [hrest]
    rw [hmaj,
      takeWhile_holding_eq_filter chain (top.stocks.get chain) (top :: t) hbound hp]
    simp only [List.mem_filter, decide_eq_true_eq]
    constructor
    · rintro ⟨hmem, heq⟩
      refine ⟨hmem, fun q hq => ?_⟩
      rw [heq]
      exact hbound q hq
    · rintro ⟨hmem, hall⟩
      exact ⟨hmem, Nat.le_antisymm (hbound p hmem) (hall top (List.mem_cons_self _ _))⟩

theorem rankingsOfSorted_minority_mem (chain : ChainName) (l : List PlayerState)
    (hp : l.Pairwise (fun x y => y.stocks.get chain ≤ x.stocks.get chain))
    (p : PlayerState) :
    p ∈ (rankingsOfSorted chain l).minority
      ↔ p ∈ l ∧ (∃ m ∈ l, p.stocks.get chain < m.stocks.get chain)
          ∧ ∀ q ∈ l, (∃ m ∈ l, q.stocks.get chain < m.stocks.get chain) →
              q.stocks.get chain ≤ p.stocks.get chain := by
  cases l with
  | nil => simp [rankingsOfSorted]
  | cons top t =>
    have hbound := pairwise_holding_head_bound chain top t hp
    have hltrest := dropWhile_holding_lt chain (top.stocks.get chain) (top :: t) hbound hp
    have hsubrest : ((top :: t).dropWhile
        (fun q => decide (q.stocks.get chain = top.stocks.get chain))) ⊆ (top :: t) :=
      (List.dropWhile_sublist _).subset
    have hsortrest : ((top :: t).dropWhile
        (fun q => decide (q.stocks.get chain = top.stocks.get chain))).Pairwise
          (fun x y => y.stocks.get chain ≤ x.stocks.get chain) :=
      List.Pairwise.sublist (List.dropWhile_sublist _) hp
    have hintorest : ∀ x ∈ top :: t, x.stocks.get chain < top.stocks.get chain →
        x ∈ (top :: t).dropWhile
          (fun q => decide (q.stocks.get chain = top.stocks.get chain)) := by
      intro x hx hlt
      have hx2 := hx
      have hsplit : (top :: t).takeWhile
            (fun q => decide (q.stocks.get chain = top.stocks.get chain))
          ++ (top :: t).dropWhile
            (fun q => decide (q.stocks.get chain = top.stocks.get chain)) = top :: t :=
        List.takeWhile_append_dropWhile _ (top :: t)
      rw [← hsplit] at hx2
      rcases List.mem_append.mp hx2 with h1 | h1
      · have := List.mem_takeWhile_imp h1
        simp only [decide_eq_true_eq] at this
        omega
      · exact h1
    cases hrest : (top :: t).dropWhile
        (fun q => decide (q.stocks.get chain = top.stocks.get chain)) with
    | nil =>
      have hminor : (rankingsOfSorted chain (top :: t)).minority = [] := by
        unfold rankingsOfSorted
        simp [hrest]
      rw [hminor]
      simp only [List.not_mem_nil, false_iff]
      rintro ⟨hmem, ⟨m, hm, hlt⟩, hmax⟩
      have hlt0 : p.stocks.get chain < top.stocks.get chain :=
        Nat.lt_of_lt_of_le hlt (hbound m hm)
      have hmem2 := hintorest p hmem hlt0
      rw [hrest] at hmem2
      cases hmem2
    | cons second t2 =>
      rw [hrest] at hltrest hsubrest hsortrest hintorest
      have hboundrest := pairwise_holding_head_bound chain second t2 hsortrest
      have hminor : (rankingsOfSorted chain (top :: t)).minority
          = (second :: t2).takeWhile
              (fun q => decide (q.stocks.get chain = second.stocks.get chain)) := by
        unfold rankingsOfSorted
        simp [hrest]
      rw [hminor,
        takeWhile_holding_eq_filter chain (second.stocks.get chain) (second :: t2)
          hboundrest hsortrest]
      simp only [List.mem_filter, decide_eq_true_eq]
      have hsecondmem : second ∈ top :: t := hsubrest (List.mem_cons_self second t2)
      have hsecondlt : second.stocks.get chain < top.stocks.get chain :=
        hltrest second (List.mem_cons_self second t2)
      constructor
      · rintro ⟨hmemr, heq⟩
        have hpl : p ∈ top :: t := hsubrest hmemr
        have hplt : p.stocks.get chain < top.stocks.get chain := hltrest p hmemr
        refine ⟨hpl, ⟨top, List.mem_cons_self top t, hplt⟩, ?_⟩
        rintro q hq ⟨m, hm, hlt⟩
        have hqlt : q.stocks.get chain < top.stocks.get chain :=
          Nat.lt_of_lt_of_le hlt (hbound m hm)
        have hqmem2 := hintorest q hq hqlt
        rw [heq]
        exact hboundrest q hqmem2
      · rintro ⟨hpl, ⟨m, hm, hlt⟩, hmax⟩
        have hplt : p.stocks.get chain < top.stocks.get chain :=
          Nat.lt_of_lt_of_le hlt (hbound m hm)
        have hpmem2 := hintorest p hpl hplt
        have hle1 : second.stocks.get chain ≤ p.stocks.get chain :=
          hmax second hsecondmem ⟨top, List.mem_cons_self top t, hsecondlt⟩
        have hle2 : p.stocks.get chain ≤ second.stocks.get chain :=
          hboundrest p hpmem2
        exact ⟨hpmem2, Nat.le_antisymm hle2 hle1⟩

theorem byHolding_trans (chain : ChainName) :
    ∀ a b c : PlayerState, byHolding chain a b → byHolding chain b c → byHolding chain a c := by
  intro a b c hab hbc
  simp only [byHolding, decide_eq_true_eq] at hab hbc ⊢
  omega

theorem byHolding_total (chain : ChainName) :
    ∀ a b : PlayerState, byHolding chain a b || byHolding chain b a := by
  intro a b
  simp only [byHolding, Bool.or_eq_true, decide_eq_true_eq]
  omega

/-- C2: `getStockholderRankings` ranks the holders with positive count
descending; `majority` is exactly the set of holders tied for the
maximum count, and `minority` is exactly the set of holders tied for the
next distinct lower count, present only when holders remain below the
majority group.  In particular, when all holders are tied the majority
holds them all and the minority is empty, and with no holders both are
empty. -/
theorem getStockholderRankings_spec (players : List PlayerState) (chain : ChainName) :
    (∀ p, p ∈ (getStockholderRankings players chain).majority
        ↔ (p ∈ players ∧ 0 < p.stocks.get chain
            ∧ ∀ q ∈ players, q.stocks.get chain ≤ p.stocks.get chain))
    ∧ (∀ p, p ∈ (getStockholderRankings players chain).minority
        ↔ (p ∈ players ∧ 0 < p.stocks.get chain
            ∧ (∃ m ∈ players, p.stocks.get chain < m.stocks.get chain)
            ∧ ∀ q ∈ players,
                (∃ m ∈ players, q.stocks.get chain < m.stocks.get chain) →
                q.stocks.get chain ≤ p.stocks.get chain)) := by
  have hsorted : ((players.filter (fun p => decide (0 < p.stocks.get chain))).mergeSort
      (byHolding chain)).Pairwise (fun x y => y.stocks.get chain ≤ x.stocks.get chain) := by
    have hpw := List.sorted_mergeSort (byHolding_trans chain)
      (byHolding_total chain) (players.filter (fun p => decide (0 < p.stocks.get chain)))
    exact hpw.imp (fun h => by simpa [byHolding] using h)
  have hmem : ∀ x : PlayerState,
      x ∈ (players.filter (fun p => decide (0 < p.stocks.get chain))).mergeSort
        (byHolding chain)
      ↔ x ∈ players ∧ 0 < x.stocks.get chain := by
    intro x
    rw [(List.mergeSort_perm _ _).mem_iff, List.mem_filter]
    simp
  constructor
  · intro p
    rw [show getStockholderRankings players chain
        = rankingsOfSorted chain
            ((players.filter (fun p => decide (0 < p.stocks.get chain))).mergeSort
              (byHolding chain)) from rfl,
      rankingsOfSorted_majority_mem chain _ hsorted p]
    constructor
    · rintro ⟨hmemh, hall⟩
      obtain ⟨hppl, hppos⟩ := (hmem p).mp hmemh
      refine ⟨hppl, hppos, fun q hq => ?_⟩
      by_cases hq0 : 0 < q.stocks.get chain
      · exact hall q ((hmem q).mpr ⟨hq, hq0⟩)
      · omega
    · rintro ⟨hppl, hppos, hall⟩
      exact ⟨(hmem p).mpr ⟨hppl, hppos⟩, fun q hq => hall q ((hmem q).mp hq).1⟩
  · intro p
    rw [show getStockholderRankings players chain
        = rankingsOfSorted chain
            ((players.filter (fun p => decide (0 < p.stocks.get chain))).mergeSort
              (byHolding chain)) from rfl,
      rankingsOfSorted_minority_mem chain _ hsorted p]
    constructor
    · rintro ⟨hmemh, ⟨m, hmmem, hlt⟩, hmax⟩
      obtain ⟨hppl, hppos⟩ := (hmem p).mp hmemh
      obtain ⟨hmpl, hmpos⟩ := (hmem m).mp hmmem
      refine ⟨hppl, hppos, ⟨m, hmpl, hlt⟩, ?_⟩
      rintro q hq ⟨m2, hm2, hlt2⟩
      by_cases hq0 : 0 < q.stocks.get chain
      · exact hmax q ((hmem q).mpr ⟨hq, hq0⟩)
          ⟨m2, (hmem m2).mpr ⟨hm2, by omega⟩, hlt2⟩
      · omega
    · rintro ⟨hppl, hppos, ⟨m, hmpl, hlt⟩, hmax⟩
      refine ⟨(hmem p).mpr ⟨hppl, hppos⟩,
        ⟨m, (hmem m).mpr ⟨hmpl, by omega⟩, hlt⟩, ?_⟩
      rintro q hq ⟨m2, hm2, hlt2⟩
      exact hmax q ((hmem q).mp hq).1 ⟨m2, ((hmem m2).mp hm2).1, hlt2⟩

/-- Witness for C2 at the sample holders (counts 5, 3, 3, 0). -/
theorem getStockholderRankings_spec_witness :
    (∀ p, p ∈ (getStockholderRankings rankPlayers ChainName.sackson).majority
        ↔ (p ∈ rankPlayers ∧ 0 < p.stocks.get ChainName.sackson
            ∧ ∀ q ∈ rankPlayers,
                q.stocks.get ChainName.sackson ≤ p.stocks.get ChainName.sackson))
    ∧ (∀ p, p ∈ (getStockholderRankings rankPlayers ChainName.sackson).minority
        ↔ (p ∈ rankPlayers ∧ 0 < p.stocks.get ChainName.sackson
            ∧ (∃ m ∈ rankPlayers,
                p.stocks.get ChainName.sackson < m.stocks.get ChainName.sackson)
            ∧ ∀ q ∈ rankPlayers,
                (∃ m ∈ rankPlayers,
                  q.stocks.get ChainName.sackson < m.stocks.get ChainName.sackson) →
                q.stocks.get ChainName.sackson ≤ p.stocks.get ChainName.sackson)) :=
  getStockholderRankings_spec rankPlayers ChainName.sackson

end Acquire
